import Mathlib

/-!
Verification development for the Regent Reddit-agent repository.

This file gives a shallow embedding of the core of the repository:

* the conversation-tree cropping algorithm of `src/reddit_utils.py`
  (`get_tree_size`, `find_min_score_threshold`, `get_cropped_tree`,
  `get_comment_tree`);
* the command registry of `src/commands.py` (`Command.decode`, the four
  registered commands, `time_until_create_post_possible`,
  `CreatePost.execute`);
* the stream-ingestion consumer and history bound of `src/agent.py`
  (`stream_submissions_to_state`, `already_streamed`, `append_to_history`,
  `handle_new_event`);
* the duration formatter of `src/utils.py` (`seconds_to_hms`);
* the state save/load path of `src/agent_env.py`.

Machine integers of the source are modelled as `Int`/`Nat`; timestamps as
Unix seconds (`Int`); Python exceptions as `Except`/`Option`; the `while`
loops of `find_min_score_threshold` carry an explicit fuel argument so the
embedded functions stay total and executable; Python's `list` of tree
nodes becomes the isomorphic `CommentForest` (a nested `List` would not
let Lean 4.14 compile the recursions structurally).
-/

namespace Regent

/-! ## Conversation tree model (from `src/reddit_utils.py`) -/

mutual

/-- A comment-tree node, as the `CommentTreeNode` dataclass of
`src/reddit_utils.py`: author, text, content id, score, ordered replies. -/
inductive CommentTreeNode : Type where
  | mk (author : String) (text : String) (content_id : String) (score : Int)
       (replies : CommentForest)

/-- A list of comment-tree nodes (`list[CommentTreeNode]` in the source). -/
inductive CommentForest : Type where
  | nil
  | cons (head : CommentTreeNode) (tail : CommentForest)

end

deriving instance DecidableEq for CommentTreeNode, CommentForest

/-- List concatenation on `CommentForest`. -/
def CommentForest.append : CommentForest → CommentForest → CommentForest
  | .nil, ys => ys
  | .cons x xs, ys => .cons x (CommentForest.append xs ys)

mutual

/-- The per-node contribution inside the loop of `get_tree_size` of
`src/reddit_utils.py`: zero if the node's score is below the threshold
(so its whole subtree is excluded), otherwise one plus the size of its
replies. -/
def get_tree_size_node (min_score_threshold : Option Int) :
    CommentTreeNode → Nat
  | .mk _ _ _ score replies =>
    match min_score_threshold with
    | some t =>
      if score < t then 0 else 1 + get_tree_size min_score_threshold replies
    | none => 1 + get_tree_size min_score_threshold replies

/-- `get_tree_size` of `src/reddit_utils.py`: the number of nodes of the
forest whose score meets the threshold, where a node below the threshold
is skipped together with its whole subtree.  `none` means no threshold. -/
def get_tree_size (min_score_threshold : Option Int) : CommentForest → Nat
  | .nil => 0
  | .cons node rest =>
    get_tree_size_node min_score_threshold node
      + get_tree_size min_score_threshold rest

end

mutual

/-- The per-node contribution inside the loop of `get_cropped_tree` of
`src/reddit_utils.py`: nothing if the node is below the threshold, else
the node rebuilt with its replies cropped recursively. -/
def get_cropped_tree_node (min_score_threshold : Option Int) :
    CommentTreeNode → CommentForest
  | .mk author text content_id score replies =>
    match min_score_threshold with
    | some t =>
      if score < t then .nil
      else .cons (.mk author text content_id score
                    (get_cropped_tree replies min_score_threshold)) .nil
    | none => .cons (.mk author text content_id score
                    (get_cropped_tree replies min_score_threshold)) .nil

/-- `get_cropped_tree` of `src/reddit_utils.py`: rebuild the forest keeping
only nodes that meet the threshold (subtrees of dropped nodes are dropped),
preserving node fields and sibling order. -/
def get_cropped_tree (tree : CommentForest) (min_score_threshold : Option Int) :
    CommentForest :=
  match tree with
  | .nil => .nil
  | .cons node rest =>
    CommentForest.append (get_cropped_tree_node min_score_threshold node)
      (get_cropped_tree rest min_score_threshold)

end

mutual

/-- Plain node count of a tree (every node counted, no threshold). -/
def count_nodes_node : CommentTreeNode → Nat
  | .mk _ _ _ _ replies => 1 + count_nodes replies

/-- Plain node count of a forest (every node counted, no threshold). -/
def count_nodes : CommentForest → Nat
  | .nil => 0
  | .cons node rest => count_nodes_node node + count_nodes rest

end

/-- The first `while` loop of `find_min_score_threshold` of
`src/reddit_utils.py`: decrease `low` by `max(mid - low, 5)` while the tree
size at `low` is below the desired size.  `fuel` bounds the iterations
(the Python loop is unbounded); `none` reports fuel exhaustion. -/
def expand_low (tree : CommentForest) (desired_size : Nat) (mid : Int) :
    Nat → Int → Option Int
  | 0, _ => none
  | fuel + 1, low =>
    if get_tree_size (some low) tree < desired_size then
      expand_low tree desired_size mid fuel (low - max (mid - low) 5)
    else some low

/-- The second `while` loop of `find_min_score_threshold` of
`src/reddit_utils.py`: increase `high` by `max(high - mid, 5)` while the
tree size at `high` is above the desired size. -/
def expand_high (tree : CommentForest) (desired_size : Nat) (mid : Int) :
    Nat → Int → Option Int
  | 0, _ => none
  | fuel + 1, high =>
    if desired_size < get_tree_size (some high) tree then
      expand_high tree desired_size mid fuel (high + max (high - mid) 5)
    else some high

/-- The final `while low <= high` loop of `find_min_score_threshold` of
`src/reddit_utils.py`: binary search returning `mid` on an exact size
match and `low` once the bracket is exhausted.  Python's `(low + high) // 2`
is floor division, i.e. `Int.fdiv`. -/
def bisect_threshold (tree : CommentForest) (desired_size : Nat) :
    Nat → Int → Int → Option Int
  | 0, _, _ => none
  | fuel + 1, low, high =>
    if low ≤ high then
      let mid := Int.fdiv (low + high) 2
      let size := get_tree_size (some mid) tree
      if size = desired_size then some mid
      else if size < desired_size then
        bisect_threshold tree desired_size fuel low (mid - 1)
      else
        bisect_threshold tree desired_size fuel (mid + 1) high
    else some low

/-- `find_min_score_threshold` of `src/reddit_utils.py`: `mid` is computed
once from the initial bracket, the bracket is expanded by the two `while`
loops, then bisected.  `fuel` bounds each loop. -/
def find_min_score_threshold (fuel : Nat) (tree : CommentForest)
    (desired_size : Nat) (low high : Int) : Option Int :=
  let mid := Int.fdiv (low + high) 2
  match expand_low tree desired_size mid fuel low with
  | none => none
  | some low2 =>
    match expand_high tree desired_size mid fuel high with
    | none => none
    | some high2 => bisect_threshold tree desired_size fuel low2 high2

/-- The pure core of `get_comment_tree` of `src/reddit_utils.py`: given the
materialized comment forest and the size budget `max_size`, pick the
threshold — `none` when the untouched tree size is strictly below the
budget, otherwise `find_min_score_threshold` on the bracket `[1, 500]` —
and return it together with the cropped forest.  The praw submission fetch
and the `SubmissionTreeNode` wrapper around the cropped forest carry no
logic and are omitted; `fuel` bounds the search loops. -/
def get_comment_tree_core (fuel : Nat) (comment_tree : CommentForest)
    (max_size : Nat) : Option (Option Int × CommentForest) :=
  let tree_size := get_tree_size none comment_tree
  if tree_size ≥ max_size then
    match find_min_score_threshold fuel comment_tree max_size 1 500 with
    | none => none
    | some t => some (some t, get_cropped_tree comment_tree (some t))
  else
    some (none, get_cropped_tree comment_tree none)

/-- The spec's example tree: a root with score 10 and two score-5
children, one of which has a score-1 child. -/
def exampleTree : CommentForest :=
  .cons (.mk "a" "root" "t3_x" 10
    (.cons (.mk "b" "c1" "t1_y" 5 .nil)
      (.cons (.mk "c" "c2" "t1_z" 5
        (.cons (.mk "d" "g" "t1_w" 1 .nil) .nil)) .nil))) .nil

/-- Two sibling leaves of scores 10 and 100: the tree exhibiting that the
returned threshold is not the minimal one achieving an exact size match. -/
def twoLeafTree : CommentForest :=
  .cons (.mk "a" "x" "t1_a" 10 .nil)
    (.cons (.mk "b" "y" "t1_b" 100 .nil) .nil)

/-- `Subforest sub sup`: `sub` is obtained from `sup` by deleting some
nodes together with their whole subtrees, keeping the fields of the
remaining nodes, their parent/child structure, and the original sibling
order. -/
inductive Subforest : CommentForest → CommentForest → Prop where
  | nil : Subforest .nil .nil
  | keep (author text content_id : String) (score : Int)
      (replies' replies rest' rest : CommentForest) :
      Subforest replies' replies → Subforest rest' rest →
      Subforest (.cons (.mk author text content_id score replies') rest')
        (.cons (.mk author text content_id score replies) rest)
  | drop (n : CommentTreeNode) (rest' rest : CommentForest) :
      Subforest rest' rest → Subforest rest' (.cons n rest)

mutual

/-- Every node of the tree has score at least `t`, recursively. -/
def node_scores_ge (t : Int) : CommentTreeNode → Bool
  | .mk _ _ _ s replies => decide (t ≤ s) && forest_scores_ge t replies

/-- Every node of the forest has score at least `t`, recursively. -/
def forest_scores_ge (t : Int) : CommentForest → Bool
  | .nil => true
  | .cons n rest => node_scores_ge t n && forest_scores_ge t rest

end

/-! ## Duration formatting (from `src/utils.py`) -/

/-- Python's `' '.join`. -/
def joinSpace : List String → String
  | [] => ""
  | [x] => x
  | x :: rest => x ++ " " ++ joinSpace rest

/-- `seconds_to_hms` of `src/utils.py` (imported by `src/commands.py`
under the name `seconds_to_dhms`): compact duration formatting — whole
hours when non-zero, minutes when non-zero and fewer than 24 hours,
seconds when non-zero and zero hours, `"0s"` when nothing was emitted
(Python's `' '.join(result) or "0s"`; the joined string is falsy exactly
when the list is empty, since every component ends in a letter).  The
Python function raises on negative input, so the domain is `Nat`. -/
def seconds_to_hms (seconds : Nat) : String :=
  let hours := seconds / 3600
  let remainder := seconds % 3600
  let minutes := remainder / 60
  let secs := remainder % 60
  let result : List String :=
    (if hours ≠ 0 then [toString hours ++ "h"] else [])
      ++ (if minutes ≠ 0 ∧ hours < 24 then [toString minutes ++ "m"] else [])
      ++ (if secs ≠ 0 ∧ hours = 0 then [toString secs ++ "s"] else [])
  if result.isEmpty then "0s" else joinSpace result

/-! ## Command registry (from `src/commands.py`) -/

/-- Modelled from the spec: the structured decision returned by the
generation collaborator (§6) — a command name and an ordered list of
string parameters.  `src/commands.py` imports this `Action` class from a
provider module whose variant is not part of `src/`. -/
structure Action where
  command : String
  parameters : List String

/-- The typed command values of `src/commands.py`: one constructor per
registered `Command` subclass, carrying its dataclass fields. -/
inductive Command : Type where
  | ShowNewPost
  | ShowConversationWithNewActivity
  | ReplyToContent (content_id : String) (reply_text : String)
  | CreatePost (subreddit : String) (post_title : String) (post_text : String)
deriving DecidableEq

/-- The text of the `ValueError` each `instance_decode` of
`src/commands.py` raises on an arity mismatch, e.g. the f-string
`"reply_to_content requires 2 arguments, got {len(args)}"`. -/
def arity_error_message (name : String) (expected got : Nat) : String :=
  name ++ " requires " ++ toString expected ++ " arguments, got "
    ++ toString got

/-- `ShowNewPost.instance_decode` of `src/commands.py`: requires exactly
0 arguments; `ValueError` is modelled as `Except.error`. -/
def showNewPost_instance_decode (args : List String) : Except String Command :=
  match args with
  | [] => .ok .ShowNewPost
  | _ => .error (arity_error_message "show_new_post" 0 args.length)

/-- `ShowConversationWithNewActivity.instance_decode` of
`src/commands.py`: requires exactly 0 arguments. -/
def showConversationWithNewActivity_instance_decode (args : List String) :
    Except String Command :=
  match args with
  | [] => .ok .ShowConversationWithNewActivity
  | _ => .error (arity_error_message "show_conversation_with_new_activity" 0
      args.length)

/-- `ReplyToContent.instance_decode` of `src/commands.py`: requires
exactly 2 arguments and builds the instance from them in order. -/
def replyToContent_instance_decode (args : List String) :
    Except String Command :=
  match args with
  | [content_id, reply_text] => .ok (.ReplyToContent content_id reply_text)
  | _ => .error (arity_error_message "reply_to_content" 2 args.length)

/-- `CreatePost.instance_decode` of `src/commands.py`: requires exactly
3 arguments and builds the instance from them in order. -/
def createPost_instance_decode (args : List String) : Except String Command :=
  match args with
  | [subreddit, post_title, post_text] =>
    .ok (.CreatePost subreddit post_title post_text)
  | _ => .error (arity_error_message "create_post" 3 args.length)

/-- `CommandInfo` of `src/commands.py`: the registered command class —
represented by its `instance_decode` classmethod — with the declared
parameter names and description. -/
structure CommandInfo where
  instance_decode : List String → Except String Command
  parameter_names : List String
  description : String

/-- The registry entry created by `@Command.register("show_new_post", ...)`. -/
def showNewPost_info : CommandInfo :=
  ⟨showNewPost_instance_decode, [],
    "Show the newest post in the monitored subreddits"⟩

/-- The registry entry created by
`@Command.register("show_conversation_with_new_activity", ...)`. -/
def showConversationWithNewActivity_info : CommandInfo :=
  ⟨showConversationWithNewActivity_instance_decode, [],
    "If you have new comments in your inbox, show the whole conversation for the newest one"⟩

/-- The registry entry created by `@Command.register("reply_to_content", ...)`. -/
def replyToContent_info : CommandInfo :=
  ⟨replyToContent_instance_decode, ["CONTENT_ID", "REPLY_TEXT"],
    "Reply to a post or comment with the given ID. You can get comment IDs from the inbox, and post IDs from the show_new_post command"⟩

/-- The registry entry created by `@Command.register("create_post", ...)`. -/
def createPost_info : CommandInfo :=
  ⟨createPost_instance_decode, ["SUBREDDIT", "POST_TITLE", "POST_TEXT"],
    "Create a post in the given subreddit (excluding r/) with the given title and text"⟩

/-- The `Command.registry` of `src/commands.py` filled by the four
`@Command.register` decorators, in registration (module) order. -/
def commandRegistry : List (String × CommandInfo) :=
  [("show_new_post", showNewPost_info),
   ("show_conversation_with_new_activity",
     showConversationWithNewActivity_info),
   ("reply_to_content", replyToContent_info),
   ("create_post", createPost_info)]

/-- `Command.decode` of `src/commands.py`: fail on an unknown command
name (`ValueError`, modelled as `Except.error`), otherwise delegate to
the registered class's `instance_decode`. -/
def Command.decode (action : Action) : Except String Command :=
  match commandRegistry.lookup action.command with
  | none => .error ("Unknown command: " ++ action.command)
  | some info => info.instance_decode action.parameters

/-- `time_until_create_post_possible` of `src/commands.py`: zero when the
account has no latest submission, otherwise
`max(latest.created_utc + minimum_time_between_posts_hours*3600 - now, 0)`.
The Reddit handle is replaced by the creation time it supplies. -/
def time_until_create_post_possible (latest_created_utc : Option Int)
    (current_utc : Int) (minimum_time_between_posts_hours : Int) : Int :=
  match latest_created_utc with
  | none => 0
  | some created =>
    max (created + minimum_time_between_posts_hours * 3600 - current_utc) 0

/-- `CreatePost.available` of `src/commands.py`: the command is offered
exactly when no wait remains. -/
def createPost_available (latest_created_utc : Option Int) (current_utc : Int)
    (minimum_time_between_posts_hours : Int) : Bool :=
  time_until_create_post_possible latest_created_utc current_utc
    minimum_time_between_posts_hours ≤ 0

/-- An outcome dictionary of a command execution in `src/commands.py`:
exactly one of the keys `result`, `error`, `note`. -/
inductive ExecOutcome : Type where
  | result (msg : String)
  | error (msg : String)
  | note (msg : String)
deriving DecidableEq

/-- The domain logic of `CreatePost.execute` of `src/commands.py`.  The
Reddit handle is replaced by the data it supplies (the creation time of
the account's latest submission); the boolean records whether
`subreddit.submit` was called.  Expected domain failures are returned as
`error` outcomes, never raised. -/
def createPost_execute (subreddit : String) (active_on_subreddits : List String)
    (latest_created_utc : Option Int) (current_utc : Int)
    (minimum_time_between_posts_hours : Int) : ExecOutcome × Bool :=
  let time_left := time_until_create_post_possible latest_created_utc
    current_utc minimum_time_between_posts_hours
  if time_left ≤ 0 then
    if subreddit ∉ active_on_subreddits then
      (.error ("You are not active on the subreddit: " ++ subreddit), false)
    else
      (.result "Post created", true)
  else
    (.error ("Not enough time has passed since the last post. Time until next post possible: "
        ++ seconds_to_hms time_left.toNat), false)

/-! ## Agent state and stream ingestion (from
`src/pydantic_models/agent_state.py` and `src/agent.py`) -/

/-- `HistoryItem` of `src/pydantic_models/agent_state.py`. -/
structure HistoryItem where
  model_action : String
  action_result : String
deriving DecidableEq

/-- `StreamedSubmission` of `src/pydantic_models/agent_state.py`;
timestamps are UTC Unix seconds. -/
structure StreamedSubmission where
  id : String
  timestamp : Int
deriving DecidableEq

/-- `AgentState` of `src/pydantic_models/agent_state.py`. -/
structure AgentState where
  history : List HistoryItem
  streamed_submissions : List StreamedSubmission
  streamed_submissions_until_timestamp : Int
deriving DecidableEq

/-- A praw submission as the ingestion consumer sees it: its id and its
creation time `created_utc` (Unix seconds). -/
structure QueueItem where
  id : String
  created_utc : Int
deriving DecidableEq

/-- `already_streamed` of `src/agent.py`: whether an entry with the
submission's id is already in the pending list. -/
def already_streamed (state : AgentState) (s : QueueItem) : Bool :=
  state.streamed_submissions.any (fun x => x.id == s.id)

/-- One iteration of the drain loop of `stream_submissions_to_state` of
`src/agent.py`: an item at or before the high-water timestamp is
discarded as stale; otherwise the high-water timestamp advances to the
item's creation time and the item is appended unless already present. -/
def stream_drain_step (state : AgentState) (s : QueueItem) : AgentState :=
  if s.created_utc ≤ state.streamed_submissions_until_timestamp then state
  else
    let state1 :=
      { state with streamed_submissions_until_timestamp := s.created_utc }
    if already_streamed state1 s then state1
    else
      { state1 with streamed_submissions :=
          state1.streamed_submissions ++ [⟨s.id, s.created_utc⟩] }

/-- Python's `l[-k:]` for a natural `k`: the whole list when `k = 0`
(Python's `-0` is `0`, so `l[-0:]` is `l[0:]`), otherwise the last `k`
elements. -/
def pySliceLast {α : Type} (k : Nat) (l : List α) : List α :=
  if k = 0 then l else l.drop (l.length - k)

/-- The pure core of `stream_submissions_to_state` of `src/agent.py`:
drain the queued submissions in arrival order, keep only entries younger
than `max_post_age_for_replying_hours`, and trim to the last
`max_streamed_submissions = 8` entries.  The queue contents, the current
time and the configured maximum age are explicit arguments; the
`queue.Empty` exit and `save_state` do not touch the data. -/
def stream_submissions_to_state (state : AgentState) (queue : List QueueItem)
    (now : Int) (max_post_age_for_replying_hours : Int) : AgentState :=
  let drained := queue.foldl stream_drain_step state
  let submissions_newer_than_max_age := drained.streamed_submissions.filter
    (fun s => now - max_post_age_for_replying_hours * 3600 < s.timestamp)
  { drained with
    streamed_submissions := pySliceLast 8 submissions_newer_than_max_age }

/-- `append_to_history` of `src/agent.py`: append, then, when the length
exceeds `max_history_length`, keep the Python slice
`history[-max_history_length:]`. -/
def append_to_history (max_history_length : Nat) (history : List HistoryItem)
    (item : HistoryItem) : List HistoryItem :=
  let history1 := history ++ [item]
  if history1.length > max_history_length then
    pySliceLast max_history_length history1
  else history1

/-- A reaction performed by the `react` phase of the orchestrator. -/
inductive ReactEvent : Type where
  | inboxReply (content_id : String)
  | newPost (submission_id : String)
deriving DecidableEq

/-- The event skeleton of `handle_new_event` of `src/agent.py`: list the
unread inbox comments, drain the stream queue into the state, then (1)
when the inbox is non-empty, react to its first comment (the handler
receives `"t1_" ++ comment.id`), and (2) when pending submissions remain,
react to the newest one unless its author is unknown, and remove it from
the pending list.  Prompt construction, the provider calls and the Reddit
writes carry no event-selection logic and are abstracted; `author_known`
stands for the `latest_submission.author` check. -/
def handle_new_event_core (inbox_comment_ids : List String)
    (state : AgentState) (queue : List QueueItem) (now : Int)
    (max_post_age_for_replying_hours : Int) (author_known : String → Bool) :
    List ReactEvent × AgentState :=
  let state1 := stream_submissions_to_state state queue now
    max_post_age_for_replying_hours
  let inbox_events :=
    match inbox_comment_ids with
    | [] => []
    | c :: _ => [ReactEvent.inboxReply ("t1_" ++ c)]
  match state1.streamed_submissions.getLast? with
  | some latest =>
    let post_events :=
      if author_known latest.id then [ReactEvent.newPost latest.id] else []
    (inbox_events ++ post_events,
      { state1 with
        streamed_submissions := state1.streamed_submissions.dropLast })
  | none => (inbox_events, state1)

/-! ## State persistence (from `src/agent_env.py`) -/

/-- A JSON document, the format of the persisted state file. -/
inductive Json : Type where
  | str (s : String)
  | num (n : Int)
  | arr (items : List Json)
  | obj (fields : List (String × Json))

/-- Field lookup in a JSON object. -/
def Json.getField (j : Json) (key : String) : Option Json :=
  match j with
  | .obj fields => fields.lookup key
  | _ => none

/-- A JSON string value. -/
def Json.asString : Json → Option String
  | .str s => some s
  | _ => none

/-- A JSON number value. -/
def Json.asInt : Json → Option Int
  | .num n => some n
  | _ => none

/-- Modelled from the spec: pydantic's `model_dump_json` serialization of
one `HistoryItem` (§6: the state file is one JSON document holding
history entries, pending post records, and the high-water timestamp).
The serializer itself is pydantic library code, not part of `src/`. -/
def encodeHistoryItem (h : HistoryItem) : Json :=
  .obj [("model_action", .str h.model_action),
        ("action_result", .str h.action_result)]

/-- Modelled from the spec: serialization of one `StreamedSubmission`;
the timestamp is modelled as Unix seconds. -/
def encodeStreamedSubmission (s : StreamedSubmission) : Json :=
  .obj [("id", .str s.id), ("timestamp", .num s.timestamp)]

/-- Modelled from the spec: serialization of the full `AgentState` as one
JSON document. -/
def encodeAgentState (st : AgentState) : Json :=
  .obj [("history", .arr (st.history.map encodeHistoryItem)),
        ("streamed_submissions",
          .arr (st.streamed_submissions.map encodeStreamedSubmission)),
        ("streamed_submissions_until_timestamp",
          .num st.streamed_submissions_until_timestamp)]

/-- Modelled from the spec: pydantic's validation of one history item. -/
def decodeHistoryItem (j : Json) : Option HistoryItem :=
  match (j.getField "model_action").bind Json.asString,
        (j.getField "action_result").bind Json.asString with
  | some ma, some ar => some ⟨ma, ar⟩
  | _, _ => none

/-- Modelled from the spec: pydantic's validation of one pending-post
record. -/
def decodeStreamedSubmission (j : Json) : Option StreamedSubmission :=
  match (j.getField "id").bind Json.asString,
        (j.getField "timestamp").bind Json.asInt with
  | some i, some ts => some ⟨i, ts⟩
  | _, _ => none

/-- Decode every element of a JSON array, failing when any element
fails. -/
def decodeJsonList {α : Type} (dec : Json → Option α) :
    List Json → Option (List α)
  | [] => some []
  | j :: rest =>
    match dec j with
    | none => none
    | some a =>
      match decodeJsonList dec rest with
      | none => none
      | some xs => some (a :: xs)

/-- Modelled from the spec: pydantic's `model_validate_json` for the full
`AgentState` document. -/
def decodeAgentState (j : Json) : Option AgentState :=
  match j.getField "history", j.getField "streamed_submissions",
        (j.getField "streamed_submissions_until_timestamp").bind Json.asInt with
  | some (.arr hs), some (.arr ss), some ts =>
    match decodeJsonList decodeHistoryItem hs,
          decodeJsonList decodeStreamedSubmission ss with
    | some history, some streamed => some ⟨history, streamed, ts⟩
    | _, _ => none
  | _, _, _ => none

/-- The load path of the `AgentEnv` constructor of `src/agent_env.py`:
when the state file exists, validate its JSON document (a validation
failure raises in Python, modelled as `none`); otherwise construct the
empty state with the epoch high-water timestamp
(`datetime.fromtimestamp(0, timezone.utc)`). -/
def load_state (state_file : Option Json) : Option AgentState :=
  match state_file with
  | some j => decodeAgentState j
  | none => some ⟨[], [], 0⟩

/-- `save_state` of `src/agent_env.py`: overwrite the state file with the
full serialized state. -/
def save_state (state : AgentState) : Json :=
  encodeAgentState state

/-! ## Structural lemmas about the tree functions -/

mutual

theorem get_tree_size_node_antitone (t1 t2 : Int) (h : t1 ≤ t2)
    (n : CommentTreeNode) :
    get_tree_size_node (some t2) n ≤ get_tree_size_node (some t1) n := by
  cases n with
  | mk a x c s replies =>
    simp only [get_tree_size_node]
    by_cases h1 : s < t1
    · have h2 : s < t2 := lt_of_lt_of_le h1 h
      simp [h1, h2]
    · by_cases h2 : s < t2
      · simp [h1, h2]
      · simp only [if_neg h1, if_neg h2]
        exact Nat.add_le_add_left (get_tree_size_antitone t1 t2 h replies) 1

/-- The cropped-view size is non-increasing in the threshold. -/
theorem get_tree_size_antitone (t1 t2 : Int) (h : t1 ≤ t2)
    (f : CommentForest) :
    get_tree_size (some t2) f ≤ get_tree_size (some t1) f := by
  cases f with
  | nil => simp [get_tree_size]
  | cons hd tl =>
    simp only [get_tree_size]
    exact Nat.add_le_add (get_tree_size_node_antitone t1 t2 h hd)
      (get_tree_size_antitone t1 t2 h tl)

end

mutual

theorem get_cropped_tree_node_none (n : CommentTreeNode) :
    get_cropped_tree_node none n = .cons n .nil := by
  cases n with
  | mk a x c s replies =>
    simp only [get_cropped_tree_node, get_cropped_tree_none replies]

/-- Cropping with no threshold rebuilds the forest unchanged. -/
theorem get_cropped_tree_none (f : CommentForest) :
    get_cropped_tree f none = f := by
  cases f with
  | nil => simp [get_cropped_tree]
  | cons hd tl =>
    simp only [get_cropped_tree, get_cropped_tree_node_none hd,
      get_cropped_tree_none tl, CommentForest.append]

end

theorem count_nodes_append (a b : CommentForest) :
    count_nodes (a.append b) = count_nodes a + count_nodes b := by
  cases a with
  | nil => simp [CommentForest.append, count_nodes]
  | cons hd tl =>
    simp only [CommentForest.append, count_nodes, count_nodes_append tl b]
    omega

mutual

theorem count_nodes_cropped_node (thr : Option Int) (n : CommentTreeNode) :
    count_nodes (get_cropped_tree_node thr n) = get_tree_size_node thr n := by
  cases n with
  | mk a x c s replies =>
    cases thr with
    | none =>
      simp only [get_cropped_tree_node, get_tree_size_node, count_nodes,
        count_nodes_node, count_nodes_cropped replies none, Nat.add_zero]
    | some t =>
      by_cases hs : s < t
      · simp [get_cropped_tree_node, get_tree_size_node, hs, count_nodes]
      · simp only [get_cropped_tree_node, get_tree_size_node, if_neg hs,
          count_nodes, count_nodes_node, count_nodes_cropped replies (some t),
          Nat.add_zero]

/-- The cropped forest has exactly the number of nodes that
`get_tree_size` reports for that threshold. -/
theorem count_nodes_cropped (f : CommentForest) (thr : Option Int) :
    count_nodes (get_cropped_tree f thr) = get_tree_size thr f := by
  cases f with
  | nil => simp [get_cropped_tree, count_nodes, get_tree_size]
  | cons hd tl =>
    simp only [get_cropped_tree, get_tree_size, count_nodes_append,
      count_nodes_cropped_node thr hd, count_nodes_cropped tl thr]

end

mutual

theorem get_tree_size_none_node (n : CommentTreeNode) :
    get_tree_size_node none n = count_nodes_node n := by
  cases n with
  | mk a x c s replies =>
    simp only [get_tree_size_node, count_nodes_node,
      get_tree_size_none replies]

/-- With no threshold, `get_tree_size` counts every node. -/
theorem get_tree_size_none (f : CommentForest) :
    get_tree_size none f = count_nodes f := by
  cases f with
  | nil => simp [get_tree_size, count_nodes]
  | cons hd tl =>
    simp only [get_tree_size, count_nodes, get_tree_size_none_node hd,
      get_tree_size_none tl]

end

/-- When the first expansion loop exits normally, the tree size at the
returned `low` is at least the desired size. -/
theorem expand_low_sound (tree : CommentForest) (desired : Nat) (mid : Int) :
    ∀ (fuel : Nat) (low low2 : Int),
      expand_low tree desired mid fuel low = some low2 →
      desired ≤ get_tree_size (some low2) tree := by
  intro fuel
  induction fuel with
  | zero => intro low low2 h; simp [expand_low] at h
  | succ n ih =>
    intro low low2 h
    simp only [expand_low] at h
    by_cases hc : get_tree_size (some low) tree < desired
    · rw [if_pos hc] at h
      exact ih _ _ h
    · rw [if_neg hc] at h
      cases h
      omega

/-- When the second expansion loop exits normally, the tree size at the
returned `high` is at most the desired size. -/
theorem expand_high_sound (tree : CommentForest) (desired : Nat) (mid : Int) :
    ∀ (fuel : Nat) (high high2 : Int),
      expand_high tree desired mid fuel high = some high2 →
      get_tree_size (some high2) tree ≤ desired := by
  intro fuel
  induction fuel with
  | zero => intro high high2 h; simp [expand_high] at h
  | succ n ih =>
    intro high high2 h
    simp only [expand_high] at h
    by_cases hc : desired < get_tree_size (some high) tree
    · rw [if_pos hc] at h
      exact ih _ _ h
    · rw [if_neg hc] at h
      cases h
      omega

/-- Invariant of the bisection loop: given the bracket invariants
(size at `high + 1` is at most the target, and either the size just left
of `low` is strictly above the target or the size at `low` is at least
the target), a normal exit returns either an exact size match or the
least threshold whose size is at most the target. -/
theorem bisect_threshold_sound (tree : CommentForest) (desired : Nat) :
    ∀ (fuel : Nat) (low high r : Int),
      bisect_threshold tree desired fuel low high = some r →
      get_tree_size (some (high + 1)) tree ≤ desired →
      (desired < get_tree_size (some (low - 1)) tree ∨
        desired ≤ get_tree_size (some low) tree) →
      (get_tree_size (some r) tree = desired ∨
        (get_tree_size (some r) tree ≤ desired ∧
          ∀ u : Int, u < r → desired < get_tree_size (some u) tree)) := by
  intro fuel
  induction fuel with
  | zero => intro low high r h _ _; simp [bisect_threshold] at h
  | succ n ih =>
    intro low high r h hhigh hlow
    simp only [bisect_threshold] at h
    by_cases hlh : low ≤ high
    · rw [if_pos hlh] at h
      by_cases he : get_tree_size (some (Int.fdiv (low + high) 2)) tree = desired
      · rw [if_pos he] at h
        cases h
        exact Or.inl he
      · rw [if_neg he] at h
        by_cases hlt : get_tree_size (some (Int.fdiv (low + high) 2)) tree < desired
        · rw [if_pos hlt] at h
          apply ih low (Int.fdiv (low + high) 2 - 1) r h
          · have hm : Int.fdiv (low + high) 2 - 1 + 1 = Int.fdiv (low + high) 2 := by
              omega
            rw [hm]
            exact Nat.le_of_lt hlt
          · exact hlow
        · rw [if_neg hlt] at h
          apply ih (Int.fdiv (low + high) 2 + 1) high r h hhigh
          left
          have hm : Int.fdiv (low + high) 2 + 1 - 1 = Int.fdiv (low + high) 2 := by
            omega
          rw [hm]
          omega
    · rw [if_neg hlh] at h
      cases h
      have hle : get_tree_size (some low) tree ≤ desired := by
        have hstep : high + 1 ≤ low := by omega
        exact le_trans (get_tree_size_antitone (high + 1) low hstep tree) hhigh
      cases hlow with
      | inr h2 => exact Or.inl (Nat.le_antisymm hle h2)
      | inl h1 =>
        refine Or.inr ⟨hle, ?_⟩
        intro u hu
        have hstep : u ≤ low - 1 := by omega
        exact lt_of_lt_of_le h1 (get_tree_size_antitone u (low - 1) hstep tree)

/-- Whenever `find_min_score_threshold` terminates within its fuel, the
returned threshold either achieves exactly the desired size, or is the
least threshold achieving a size at most the desired size (every smaller
threshold gives a strictly larger tree). -/
theorem find_min_score_threshold_sound (fuel : Nat) (tree : CommentForest)
    (desired : Nat) (low high t : Int)
    (h : find_min_score_threshold fuel tree desired low high = some t) :
    get_tree_size (some t) tree = desired ∨
      (get_tree_size (some t) tree ≤ desired ∧
        ∀ u : Int, u < t → desired < get_tree_size (some u) tree) := by
  simp only [find_min_score_threshold] at h
  cases hel : expand_low tree desired (Int.fdiv (low + high) 2) fuel low with
  | none => rw [hel] at h; cases h
  | some low2 =>
    rw [hel] at h
    cases heh : expand_high tree desired (Int.fdiv (low + high) 2) fuel high with
    | none => rw [heh] at h; cases h
    | some high2 =>
      rw [heh] at h
      have h1 : get_tree_size (some high2) tree ≤ desired :=
        expand_high_sound tree desired _ fuel high high2 heh
      have h2 : desired ≤ get_tree_size (some low2) tree :=
        expand_low_sound tree desired _ fuel low low2 hel
      apply bisect_threshold_sound tree desired fuel low2 high2 t h
      · exact le_trans
          (get_tree_size_antitone high2 (high2 + 1) (by omega) tree) h1
      · exact Or.inr h2

mutual

theorem subforest_cropped_node (thr : Option Int) (n : CommentTreeNode)
    (rest' rest : CommentForest) (h : Subforest rest' rest) :
    Subforest ((get_cropped_tree_node thr n).append rest') (.cons n rest) := by
  cases n with
  | mk a x c s replies =>
    cases thr with
    | none =>
      simp only [get_cropped_tree_node, CommentForest.append]
      exact Subforest.keep a x c s _ replies rest' rest
        (subforest_cropped replies none) h
    | some t =>
      by_cases hs : s < t
      · simp only [get_cropped_tree_node, if_pos hs, CommentForest.append]
        exact Subforest.drop _ rest' rest h
      · simp only [get_cropped_tree_node, if_neg hs, CommentForest.append]
        exact Subforest.keep a x c s _ replies rest' rest
          (subforest_cropped replies (some t)) h

/-- The cropped forest is a subforest of the original: structure and
sibling order are preserved. -/
theorem subforest_cropped (f : CommentForest) (thr : Option Int) :
    Subforest (get_cropped_tree f thr) f := by
  cases f with
  | nil => exact Subforest.nil
  | cons hd tl =>
    simp only [get_cropped_tree]
    exact subforest_cropped_node thr hd _ tl (subforest_cropped tl thr)

end

theorem forest_scores_ge_append (t : Int) (a b : CommentForest) :
    forest_scores_ge t (a.append b)
      = (forest_scores_ge t a && forest_scores_ge t b) := by
  cases a with
  | nil => simp [CommentForest.append, forest_scores_ge]
  | cons hd tl =>
    simp only [CommentForest.append, forest_scores_ge,
      forest_scores_ge_append t tl b, Bool.and_assoc]

mutual

theorem scores_ge_cropped_node (t : Int) (n : CommentTreeNode) :
    forest_scores_ge t (get_cropped_tree_node (some t) n) = true := by
  cases n with
  | mk a x c s replies =>
    by_cases hs : s < t
    · simp [get_cropped_tree_node, hs, forest_scores_ge]
    · simp only [get_cropped_tree_node, if_neg hs, forest_scores_ge,
        node_scores_ge, scores_ge_cropped replies t, Bool.and_true]
      simp [not_lt.mp hs]

/-- Every node kept by cropping at threshold `t` has score at least `t`. -/
theorem scores_ge_cropped (f : CommentForest) (t : Int) :
    forest_scores_ge t (get_cropped_tree f (some t)) = true := by
  cases f with
  | nil => simp [get_cropped_tree, forest_scores_ge]
  | cons hd tl =>
    simp only [get_cropped_tree, forest_scores_ge_append,
      scores_ge_cropped_node t hd, scores_ge_cropped tl t, Bool.and_self]

end

/-! ## Claim theorems: conversation-tree cropping -/

/-- C10: the cropped-view size `get_tree_size` is monotonically
non-increasing in the threshold; for every threshold, the total node
count of `get_cropped_tree` equals `get_tree_size` at that threshold; and
with threshold `none`, `get_tree_size` counts every node and
`get_cropped_tree` returns a tree equal to its input. -/
theorem C10_size_crop_algebra :
    (∀ (tree : CommentForest) (t1 t2 : Int), t1 ≤ t2 →
      get_tree_size (some t2) tree ≤ get_tree_size (some t1) tree) ∧
    (∀ (tree : CommentForest) (thr : Option Int),
      count_nodes (get_cropped_tree tree thr) = get_tree_size thr tree) ∧
    (∀ tree : CommentForest, get_tree_size none tree = count_nodes tree) ∧
    (∀ tree : CommentForest, get_cropped_tree tree none = tree) :=
  ⟨fun tree t1 t2 h => get_tree_size_antitone t1 t2 h tree,
   fun tree thr => count_nodes_cropped tree thr,
   fun tree => get_tree_size_none tree,
   fun tree => get_cropped_tree_none tree⟩

/-- C10 witness: the monotonicity part instantiated on the example tree
at thresholds `3 ≤ 7`, together with the count equation at threshold 5
and the identity crop. -/
theorem C10_size_crop_algebra_witness :
    get_tree_size (some 7) exampleTree ≤ get_tree_size (some 3) exampleTree ∧
    count_nodes (get_cropped_tree exampleTree (some 5))
      = get_tree_size (some 5) exampleTree ∧
    get_cropped_tree exampleTree none = exampleTree :=
  ⟨C10_size_crop_algebra.1 exampleTree 3 7 (by decide),
   C10_size_crop_algebra.2.1 exampleTree (some 5),
   C10_size_crop_algebra.2.2.2 exampleTree⟩

/-- C1 (amended): (1) when the untouched node count is strictly below the
budget, `get_comment_tree` applies no threshold and returns the full
tree; (2) whenever `find_min_score_threshold` terminates, it returns a
threshold whose count equals the desired size — not necessarily the
minimal such threshold — or else the smallest threshold whose count is at
most the desired size (under-filling, never over-filling); (3) a cropped
tree returned with threshold `t` has exactly `get_tree_size t` nodes, at
most the budget, is a subforest of the input (parent/child structure and
original sibling order preserved), and every kept node scores at least
`t`; (4) on the spec's `[10, 5, 5, 1]` example with budget 2, the chosen
threshold is 6, the crop keeps exactly the highest-scoring node, and its
count 1 is the largest achievable count that is at most 2. -/
theorem C1_comment_tree_cropping :
    (∀ (fuel max_size : Nat) (tree : CommentForest),
      get_tree_size none tree < max_size →
      get_comment_tree_core fuel tree max_size = some (none, tree)) ∧
    (∀ (fuel desired : Nat) (tree : CommentForest) (low high t : Int),
      find_min_score_threshold fuel tree desired low high = some t →
      (get_tree_size (some t) tree = desired ∨
        (get_tree_size (some t) tree ≤ desired ∧
          ∀ u : Int, u < t → desired < get_tree_size (some u) tree))) ∧
    (∀ (fuel max_size : Nat) (tree cropped : CommentForest) (t : Int),
      get_comment_tree_core fuel tree max_size = some (some t, cropped) →
      count_nodes cropped = get_tree_size (some t) tree ∧
      count_nodes cropped ≤ max_size ∧
      Subforest cropped tree ∧
      forest_scores_ge t cropped = true) ∧
    (get_comment_tree_core 100 exampleTree 2
        = some (some 6, .cons (.mk "a" "root" "t3_x" 10 .nil) .nil) ∧
      get_tree_size (some 6) exampleTree = 1 ∧
      (∀ u : Int, get_tree_size (some u) exampleTree ≤ 2 →
        get_tree_size (some u) exampleTree ≤ 1)) := by
  refine ⟨?_, ?_, ?_, ?_, ?_, ?_⟩
  · intro fuel max_size tree h
    simp only [get_comment_tree_core]
    rw [if_neg (by omega), get_cropped_tree_none]
  · intro fuel desired tree low high t h
    exact find_min_score_threshold_sound fuel tree desired low high t h
  · intro fuel max_size tree cropped t h
    simp only [get_comment_tree_core] at h
    by_cases hge : get_tree_size none tree ≥ max_size
    · rw [if_pos hge] at h
      cases hfm : find_min_score_threshold fuel tree max_size 1 500 with
      | none => rw [hfm] at h; cases h
      | some t' =>
        rw [hfm] at h
        simp only [Option.some.injEq, Prod.mk.injEq] at h
        obtain ⟨h1, h2⟩ := h
        cases h1
        subst h2
        refine ⟨count_nodes_cropped tree (some t), ?_,
          subforest_cropped tree (some t), scores_ge_cropped tree t⟩
        rw [count_nodes_cropped tree (some t)]
        cases find_min_score_threshold_sound fuel tree max_size 1 500 t hfm with
        | inl he => omega
        | inr hlt => exact hlt.1
    · rw [if_neg hge] at h
      simp only [Option.some.injEq, Prod.mk.injEq] at h
      cases h.1
  · decide
  · decide
  · intro u hu
    by_cases h5 : u ≤ 5
    · exfalso
      have hmono : get_tree_size (some 5) exampleTree
          ≤ get_tree_size (some u) exampleTree :=
        get_tree_size_antitone u 5 h5 exampleTree
      have h3 : get_tree_size (some 5) exampleTree = 3 := by decide
      omega
    · have hmono : get_tree_size (some u) exampleTree
          ≤ get_tree_size (some 6) exampleTree :=
        get_tree_size_antitone 6 u (by omega) exampleTree
      have h1 : get_tree_size (some 6) exampleTree = 1 := by decide
      omega

/-- C1 counterexample: on the two-sibling tree with scores 10 and 100 and
budget 1 — a case where `get_comment_tree` does invoke the search, since
the full size 2 meets the budget — `find_min_score_threshold` on the
code's bracket `[1, 500]` returns threshold 62, although the smaller
threshold 11 already yields the exact budget count 1.  The returned
threshold is therefore not the minimal score threshold whose count
equals the budget, refuting the claim as stated. -/
theorem C1_counterexample :
    get_tree_size none twoLeafTree = 2 ∧
    find_min_score_threshold 100 twoLeafTree 1 1 500 = some 62 ∧
    get_tree_size (some 62) twoLeafTree = 1 ∧
    get_tree_size (some 11) twoLeafTree = 1 ∧
    ¬ ((62 : Int) ≤ 11) := by decide

/-- C1 witness: the amended theorem instantiated on the example tree —
budget 5 exceeds the full size so the tree is returned untouched; with
budget 2 the search terminates at threshold 6 and the returned crop is a
subforest of the input. -/
theorem C1_comment_tree_cropping_witness :
    get_comment_tree_core 100 exampleTree 5 = some (none, exampleTree) ∧
    (get_tree_size (some 6) exampleTree = 2 ∨
      (get_tree_size (some 6) exampleTree ≤ 2 ∧
        ∀ u : Int, u < 6 → 2 < get_tree_size (some u) exampleTree)) ∧
    Subforest (.cons (.mk "a" "root" "t3_x" 10 .nil) .nil) exampleTree :=
  ⟨C1_comment_tree_cropping.1 100 5 exampleTree (by decide),
   C1_comment_tree_cropping.2.1 100 2 exampleTree 1 500 6 (by decide),
   (C1_comment_tree_cropping.2.2.1 100 2 exampleTree
      (.cons (.mk "a" "root" "t3_x" 10 .nil) .nil) 6 (by decide)).2.2.1⟩

/-! ## Claim theorems: duration formatting -/

/-- C7: for every non-negative number of seconds, the formatter emits the
whole-hours component exactly when the hour count is non-zero, the
minutes component exactly when minutes are non-zero and hours are fewer
than 24, the seconds component exactly when seconds are non-zero and
hours are zero, and returns `"0s"` when no component is emitted (which
happens only at 0 seconds) — so remainders at a boundary disappear into
the coarser unit already present. -/
theorem C7_seconds_to_hms_format (s : Nat) :
    (24 ≤ s / 3600 →
      seconds_to_hms s = toString (s / 3600) ++ "h") ∧
    (0 < s / 3600 → s / 3600 < 24 → 0 < s % 3600 / 60 →
      seconds_to_hms s
        = toString (s / 3600) ++ "h" ++ " "
            ++ (toString (s % 3600 / 60) ++ "m")) ∧
    (0 < s / 3600 → s / 3600 < 24 → s % 3600 / 60 = 0 →
      seconds_to_hms s = toString (s / 3600) ++ "h") ∧
    (s / 3600 = 0 → 0 < s % 3600 / 60 → 0 < s % 3600 % 60 →
      seconds_to_hms s
        = toString (s % 3600 / 60) ++ "m" ++ " "
            ++ (toString (s % 3600 % 60) ++ "s")) ∧
    (s / 3600 = 0 → 0 < s % 3600 / 60 → s % 3600 % 60 = 0 →
      seconds_to_hms s = toString (s % 3600 / 60) ++ "m") ∧
    (s / 3600 = 0 → s % 3600 / 60 = 0 → 0 < s % 3600 % 60 →
      seconds_to_hms s = toString (s % 3600 % 60) ++ "s") ∧
    (s = 0 → seconds_to_hms s = "0s") := by
  refine ⟨?_, ?_, ?_, ?_, ?_, ?_, ?_⟩
  · intro h
    have h1 : s / 3600 ≠ 0 := by omega
    have h2 : ¬ (s / 3600 < 24) := by omega
    simp [seconds_to_hms, joinSpace, h1, h2]
  · intro h0 h24 hm
    have h1 : s / 3600 ≠ 0 := by omega
    have h2 : s % 3600 / 60 ≠ 0 := by omega
    simp [seconds_to_hms, joinSpace, h1, h2, h24]
  · intro h0 h24 hm
    have h1 : s / 3600 ≠ 0 := by omega
    simp [seconds_to_hms, joinSpace, h1, hm]
  · intro h0 hm hs
    have h2 : s % 3600 / 60 ≠ 0 := by omega
    have h3 : s % 3600 % 60 ≠ 0 := by omega
    simp [seconds_to_hms, joinSpace, h0, h2, h3]
  · intro h0 hm hs
    have h2 : s % 3600 / 60 ≠ 0 := by omega
    simp [seconds_to_hms, joinSpace, h0, h2, hs]
  · intro h0 hm hs
    have h3 : s % 3600 % 60 ≠ 0 := by omega
    simp [seconds_to_hms, joinSpace, h0, hm, h3]
  · intro h
    subst h
    rfl

/-- C7 witness: 90000 seconds format as `"25h"` (minutes suppressed at
24 hours and above) and 61 seconds as `"1m 1s"`. -/
theorem C7_seconds_to_hms_format_witness :
    (24 ≤ 90000 / 3600 ∧
      seconds_to_hms 90000 = toString (90000 / 3600) ++ "h") ∧
    seconds_to_hms 61
      = toString (61 % 3600 / 60) ++ "m" ++ " "
          ++ (toString (61 % 3600 % 60) ++ "s") :=
  ⟨⟨by decide, (C7_seconds_to_hms_format 90000).1 (by decide)⟩,
   (C7_seconds_to_hms_format 61).2.2.2.1 (by decide) (by decide) (by decide)⟩

/-! ## Claim theorems: command decoding -/

/-- C2: `Command.decode` fails with the unknown-command error when the
name is not registered; fails with the arity error — constructing no
command value — when the argument-list length differs from the registered
parameter count; and otherwise succeeds with an instance of the
registered class built from the arguments in order, enumerated here for
each of the four registered classes. -/
theorem C2_decode_registry (a : Action) :
    (commandRegistry.lookup a.command = none →
      Command.decode a = .error ("Unknown command: " ++ a.command)) ∧
    (∀ info : CommandInfo, commandRegistry.lookup a.command = some info →
      (a.parameters.length ≠ info.parameter_names.length →
        Command.decode a = .error (arity_error_message a.command
          info.parameter_names.length a.parameters.length)) ∧
      (a.parameters.length = info.parameter_names.length →
        ∃ c : Command, Command.decode a = .ok c)) ∧
    (a = ⟨"show_new_post", []⟩ →
      Command.decode a = .ok .ShowNewPost) ∧
    (a = ⟨"show_conversation_with_new_activity", []⟩ →
      Command.decode a = .ok .ShowConversationWithNewActivity) ∧
    (∀ x y : String, a = ⟨"reply_to_content", [x, y]⟩ →
      Command.decode a = .ok (.ReplyToContent x y)) ∧
    (∀ x y z : String, a = ⟨"create_post", [x, y, z]⟩ →
      Command.decode a = .ok (.CreatePost x y z)) := by
  refine ⟨?_, ?_, ?_, ?_, ?_, ?_⟩
  · intro hnone
    simp [Command.decode, hnone]
  · obtain ⟨name, args⟩ := a
    intro info hinfo
    by_cases h1 : name = "show_new_post"
    · subst h1
      have hi : info = showNewPost_info := by
        simp [commandRegistry, List.lookup] at hinfo
        exact hinfo.symm
      subst hi
      refine ⟨fun hne => ?_, fun heq => ?_⟩
      · cases args with
        | nil => simp [showNewPost_info] at hne
        | cons x xs =>
          simp [Command.decode, commandRegistry, List.lookup,
            showNewPost_info, showNewPost_instance_decode]
      · have hz : args = [] := by
          simpa [showNewPost_info, List.length_eq_zero] using heq
        subst hz
        exact ⟨.ShowNewPost, rfl⟩
    · by_cases h2 : name = "show_conversation_with_new_activity"
      · subst h2
        have hi : info = showConversationWithNewActivity_info := by
          simp [commandRegistry, List.lookup] at hinfo
          exact hinfo.symm
        subst hi
        refine ⟨fun hne => ?_, fun heq => ?_⟩
        · cases args with
          | nil => simp [showConversationWithNewActivity_info] at hne
          | cons x xs =>
            simp [Command.decode, commandRegistry, List.lookup,
              showConversationWithNewActivity_info,
              showConversationWithNewActivity_instance_decode]
        · have hz : args = [] := by
            simpa [showConversationWithNewActivity_info,
              List.length_eq_zero] using heq
          subst hz
          exact ⟨.ShowConversationWithNewActivity, rfl⟩
      · by_cases h3 : name = "reply_to_content"
        · subst h3
          have hi : info = replyToContent_info := by
            simp [commandRegistry, List.lookup] at hinfo
            exact hinfo.symm
          subst hi
          refine ⟨fun hne => ?_, fun heq => ?_⟩
          · have hne2 : args.length ≠ 2 := by
              simpa [replyToContent_info] using hne
            match args, hne2 with
            | [], _ =>
              simp [Command.decode, commandRegistry, List.lookup,
                replyToContent_info, replyToContent_instance_decode]
            | [x], _ =>
              simp [Command.decode, commandRegistry, List.lookup,
                replyToContent_info, replyToContent_instance_decode]
            | x :: y :: z :: rest, _ =>
              simp [Command.decode, commandRegistry, List.lookup,
                replyToContent_info, replyToContent_instance_decode]
          · have h2len : args.length = 2 := by
              simpa [replyToContent_info] using heq
            obtain ⟨x, y, rfl⟩ := List.length_eq_two.mp h2len
            exact ⟨.ReplyToContent x y, rfl⟩
        · by_cases h4 : name = "create_post"
          · subst h4
            have hi : info = createPost_info := by
              simp [commandRegistry, List.lookup] at hinfo
              exact hinfo.symm
            subst hi
            refine ⟨fun hne => ?_, fun heq => ?_⟩
            · have hne3 : args.length ≠ 3 := by
                simpa [createPost_info] using hne
              match args, hne3 with
              | [], _ =>
                simp [Command.decode, commandRegistry, List.lookup,
                  createPost_info, createPost_instance_decode]
              | [x], _ =>
                simp [Command.decode, commandRegistry, List.lookup,
                  createPost_info, createPost_instance_decode]
              | [x, y], _ =>
                simp [Command.decode, commandRegistry, List.lookup,
                  createPost_info, createPost_instance_decode]
              | x :: y :: z :: w :: rest, _ =>
                simp [Command.decode, commandRegistry, List.lookup,
                  createPost_info, createPost_instance_decode]
            · have h3len : args.length = 3 := by
                simpa [createPost_info] using heq
              obtain ⟨x, y, z, rfl⟩ := List.length_eq_three.mp h3len
              exact ⟨.CreatePost x y z, rfl⟩
          · have e1 : (name == "show_new_post") = false :=
              beq_eq_false_iff_ne.mpr h1
            have e2 : (name == "show_conversation_with_new_activity") = false :=
              beq_eq_false_iff_ne.mpr h2
            have e3 : (name == "reply_to_content") = false :=
              beq_eq_false_iff_ne.mpr h3
            have e4 : (name == "create_post") = false :=
              beq_eq_false_iff_ne.mpr h4
            simp [commandRegistry, List.lookup, e1, e2, e3, e4] at hinfo
  · intro h
    subst h
    rfl
  · intro h
    subst h
    rfl
  · intro x y h
    subst h
    rfl
  · intro x y z h
    subst h
    rfl

/-- C2 witness: decoding `reply_to_content` with one argument fails with
the arity error; with the two arguments `"t1_x"` and `"hello"` it
returns exactly `ReplyToContent "t1_x" "hello"`. -/
theorem C2_decode_registry_witness :
    (commandRegistry.lookup "reply_to_content" = some replyToContent_info ∧
      Command.decode ⟨"reply_to_content", ["t1_x"]⟩
        = .error (arity_error_message "reply_to_content"
            replyToContent_info.parameter_names.length 1)) ∧
    Command.decode ⟨"reply_to_content", ["t1_x", "hello"]⟩
      = .ok (.ReplyToContent "t1_x" "hello") :=
  ⟨⟨by rfl,
    ((C2_decode_registry ⟨"reply_to_content", ["t1_x"]⟩).2.1
        replyToContent_info (by rfl)).1 (by decide)⟩,
   (C2_decode_registry ⟨"reply_to_content", ["t1_x", "hello"]⟩).2.2.2.2.1
      "t1_x" "hello" rfl⟩

/-! ## Claim theorems: create_post rate gating -/

/-- C6: `create_post` is available exactly when the remaining wait
`max(0, lastPostTime + minimum_time_between_posts_hours*3600 − now)` is
zero; with a positive wait, `execute` returns an `error` outcome carrying
the formatted remaining wait and performs no submission (the embedded
`execute` is a total function into outcomes — the expected domain
condition raises nothing); in particular, with
`minimum_time_between_posts_hours = 1` and a last post 1800 seconds (30
minutes) ago, the command is unavailable and execution is refused with
the `"30m"` wait. -/
theorem C6_create_post_rate_gate :
    (∀ (latest : Option Int) (now min_hours : Int),
      createPost_available latest now min_hours = true ↔
        time_until_create_post_possible latest now min_hours = 0) ∧
    (∀ (latest : Option Int) (now min_hours : Int)
        (subreddit : String) (active : List String),
      0 < time_until_create_post_possible latest now min_hours →
      createPost_execute subreddit active latest now min_hours
        = (.error
            ("Not enough time has passed since the last post. Time until next post possible: "
              ++ seconds_to_hms (time_until_create_post_possible latest now
                    min_hours).toNat), false)) ∧
    (time_until_create_post_possible (some 8200) 10000 1 = 1800 ∧
      createPost_available (some 8200) 10000 1 = false ∧
      createPost_execute "memes" ["memes"] (some 8200) 10000 1
        = (.error
            ("Not enough time has passed since the last post. Time until next post possible: 30m"),
           false)) := by
  refine ⟨?_, ?_, by decide⟩
  · intro latest now min_hours
    have h0 : 0 ≤ time_until_create_post_possible latest now min_hours := by
      cases latest with
      | none => simp [time_until_create_post_possible]
      | some c => simp [time_until_create_post_possible]
    simp only [createPost_available, decide_eq_true_eq]
    omega
  · intro latest now min_hours subreddit active h
    simp only [createPost_execute]
    rw [if_neg (by omega)]

/-- C6 witness: the positive-wait refusal applied at a last post 1800
seconds before now, and availability via the zero-wait direction. -/
theorem C6_create_post_rate_gate_witness :
    createPost_execute "memes" ["memes"] (some 8200) 10000 1
      = (.error
          ("Not enough time has passed since the last post. Time until next post possible: "
            ++ seconds_to_hms (time_until_create_post_possible (some 8200)
                  10000 1).toNat), false) ∧
    createPost_available (some 0) 100000 1 = true :=
  ⟨(C6_create_post_rate_gate.2.1 (some 8200) 10000 1 "memes" ["memes"])
      (by decide),
   (C6_create_post_rate_gate.1 (some 0) 100000 1).mpr (by decide)⟩

/-! ## Claim theorems: history bound -/

/-- C5 counterexample: with `max_history_length = 0`, Python's slice
`history[-0:]` is `history[0:]` — the whole list — so appending to an
empty history yields length 1, exceeding the configured bound 0. -/
theorem C5_counterexample :
    (append_to_history 0 [] ⟨"a", "r"⟩).length = 1 ∧ ¬ ((1 : Nat) ≤ 0) := by
  decide

/-- C5 (amended): provided `max_history_length ≥ 1`, the history length
after `append_to_history` never exceeds the bound, and when a history at
exactly the bound is appended to — the bound exceeded by exactly one —
the single oldest entry is evicted (FIFO) and all newer entries are
retained in their original order, followed by the new item.  (With
`max_history_length = 0`, Python's `history[-0:]` keeps the whole list,
violating the bound.) -/
theorem C5_history_bound (max_history_length : Nat)
    (history : List HistoryItem) (item : HistoryItem)
    (hpos : 1 ≤ max_history_length) :
    (append_to_history max_history_length history item).length
        ≤ max_history_length ∧
    (history.length = max_history_length →
      append_to_history max_history_length history item
        = history.drop 1 ++ [item]) := by
  constructor
  · simp only [append_to_history]
    by_cases h : (history ++ [item]).length > max_history_length
    · rw [if_pos h]
      have hne : max_history_length ≠ 0 := by omega
      simp only [pySliceLast, if_neg hne, List.length_drop]
      omega
    · rw [if_neg h]
      omega
  · intro hlen
    simp only [append_to_history]
    have hgt : (history ++ [item]).length > max_history_length := by
      simp only [List.length_append, List.length_singleton]
      omega
    rw [if_pos hgt]
    have hne : max_history_length ≠ 0 := by omega
    simp only [pySliceLast, if_neg hne]
    have hd : (history ++ [item]).length - max_history_length = 1 := by
      simp only [List.length_append, List.length_singleton]
      omega
    rw [hd]
    cases history with
    | nil =>
      simp only [List.length_nil] at hlen
      omega
    | cons x xs => simp

/-- C5 witness: the amended theorem at bound 3 on a full history of three
entries — the oldest entry is evicted and the rest shift up. -/
theorem C5_history_bound_witness :
    (append_to_history 3 [⟨"a", "b"⟩, ⟨"c", "d"⟩, ⟨"e", "f"⟩]
        ⟨"g", "h"⟩).length ≤ 3 ∧
    append_to_history 3 [⟨"a", "b"⟩, ⟨"c", "d"⟩, ⟨"e", "f"⟩] ⟨"g", "h"⟩
      = ([⟨"a", "b"⟩, ⟨"c", "d"⟩, ⟨"e", "f"⟩] : List HistoryItem).drop 1
          ++ [⟨"g", "h"⟩] :=
  ⟨(C5_history_bound 3 [⟨"a", "b"⟩, ⟨"c", "d"⟩, ⟨"e", "f"⟩] ⟨"g", "h"⟩
      (by decide)).1,
   (C5_history_bound 3 [⟨"a", "b"⟩, ⟨"c", "d"⟩, ⟨"e", "f"⟩] ⟨"g", "h"⟩
      (by decide)).2 (by decide)⟩

/-! ## Claim theorems: stream ingestion -/

/-- One drain iteration never moves the high-water timestamp backwards. -/
theorem drain_step_wm_mono (state : AgentState) (s : QueueItem) :
    state.streamed_submissions_until_timestamp ≤
      (stream_drain_step state s).streamed_submissions_until_timestamp := by
  simp only [stream_drain_step]
  by_cases h : s.created_utc ≤ state.streamed_submissions_until_timestamp
  · rw [if_pos h]
  · rw [if_neg h]
    split <;> simp <;> omega

/-- Draining any queue never moves the high-water timestamp backwards. -/
theorem foldl_drain_wm_mono :
    ∀ (queue : List QueueItem) (state : AgentState),
      state.streamed_submissions_until_timestamp ≤
        (queue.foldl stream_drain_step state).streamed_submissions_until_timestamp := by
  intro queue
  induction queue with
  | nil => intro state; simp
  | cons q rest ih =>
    intro state
    exact le_trans (drain_step_wm_mono state q) (ih (stream_drain_step state q))

/-- One drain iteration preserves distinctness of the pending ids. -/
theorem drain_step_nodup (state : AgentState) (s : QueueItem)
    (h : (state.streamed_submissions.map StreamedSubmission.id).Nodup) :
    ((stream_drain_step state s).streamed_submissions.map
        StreamedSubmission.id).Nodup := by
  simp only [stream_drain_step]
  by_cases hstale : s.created_utc ≤ state.streamed_submissions_until_timestamp
  · rw [if_pos hstale]; exact h
  · rw [if_neg hstale]
    by_cases hdup : already_streamed
        { state with streamed_submissions_until_timestamp := s.created_utc } s
    · rw [if_pos hdup]; exact h
    · rw [if_neg hdup]
      have hnotmem : s.id ∉ state.streamed_submissions.map
          StreamedSubmission.id := by
        intro hmem
        obtain ⟨x, hx, hxid⟩ := List.mem_map.mp hmem
        apply hdup
        simp only [already_streamed, List.any_eq_true]
        exact ⟨x, hx, by simp [hxid]⟩
      simp only [List.map_append, List.map_cons, List.map_nil,
        List.nodup_append]
      refine ⟨h, List.nodup_singleton _, ?_⟩
      intro a ha hb
      simp only [List.mem_singleton] at hb
      subst hb
      exact hnotmem ha

/-- Draining any queue preserves distinctness of the pending ids. -/
theorem foldl_drain_nodup :
    ∀ (queue : List QueueItem) (state : AgentState),
      (state.streamed_submissions.map StreamedSubmission.id).Nodup →
      (((queue.foldl stream_drain_step state).streamed_submissions).map
          StreamedSubmission.id).Nodup := by
  intro queue
  induction queue with
  | nil => intro state h; simpa using h
  | cons q rest ih =>
    intro state h
    exact ih (stream_drain_step state q) (drain_step_nodup state q h)

/-- C3: the high-water timestamp is monotonically non-decreasing across
every consumer drain, whatever the arrival order: a stale item (created
at or before the watermark) leaves the state untouched, any other item
advances the watermark to its creation time, and the whole
`stream_submissions_to_state` run never decreases the watermark. -/
theorem C3_watermark_monotone :
    (∀ (state : AgentState) (queue : List QueueItem) (now max_age : Int),
      state.streamed_submissions_until_timestamp ≤
        (stream_submissions_to_state state queue now
            max_age).streamed_submissions_until_timestamp) ∧
    (∀ (state : AgentState) (s : QueueItem),
      (s.created_utc ≤ state.streamed_submissions_until_timestamp →
        stream_drain_step state s = state) ∧
      (state.streamed_submissions_until_timestamp < s.created_utc →
        (stream_drain_step state s).streamed_submissions_until_timestamp
          = s.created_utc)) := by
  constructor
  · intro state queue now max_age
    exact foldl_drain_wm_mono queue state
  · intro state s
    constructor
    · intro h
      simp only [stream_drain_step, if_pos h]
    · intro h
      simp only [stream_drain_step, if_neg (by omega : ¬ s.created_utc ≤
        state.streamed_submissions_until_timestamp)]
      split <;> simp

/-- C3 witness: a stale item (created at 50, watermark 100) is discarded
unchanged; a fresh item (created at 200) advances the watermark. -/
theorem C3_watermark_monotone_witness :
    stream_drain_step ⟨[], [], 100⟩ ⟨"a", 50⟩ = ⟨[], [], 100⟩ ∧
    (stream_drain_step ⟨[], [], 100⟩
        ⟨"b", 200⟩).streamed_submissions_until_timestamp = 200 :=
  ⟨(C3_watermark_monotone.2 ⟨[], [], 100⟩ ⟨"a", 50⟩).1 (by decide),
   (C3_watermark_monotone.2 ⟨[], [], 100⟩ ⟨"b", 200⟩).2 (by decide)⟩

/-- C4: after a run of the ingestion consumer, (1) distinctness of the
pending ids is preserved — the appends deduplicate, so a state with no
duplicate ids never acquires one; (2) every remaining entry is younger
than `max_post_age_for_replying_hours` at filtering time; (3) at most 8
entries remain; (4) the result is a suffix of the age-filtered drained
list, i.e. the oldest entries are dropped first when the cap is
exceeded. -/
theorem C4_pending_list_invariants (state : AgentState)
    (queue : List QueueItem) (now max_age : Int) :
    ((state.streamed_submissions.map StreamedSubmission.id).Nodup →
      (((stream_submissions_to_state state queue now
            max_age).streamed_submissions).map StreamedSubmission.id).Nodup) ∧
    (∀ s ∈ (stream_submissions_to_state state queue now
          max_age).streamed_submissions,
      now - max_age * 3600 < s.timestamp) ∧
    (stream_submissions_to_state state queue now
        max_age).streamed_submissions.length ≤ 8 ∧
    (stream_submissions_to_state state queue now
        max_age).streamed_submissions <:+
      ((queue.foldl stream_drain_step state).streamed_submissions.filter
        (fun s => now - max_age * 3600 < s.timestamp)) := by
  have hs : (stream_submissions_to_state state queue now
        max_age).streamed_submissions
      = pySliceLast 8
          ((queue.foldl stream_drain_step state).streamed_submissions.filter
            (fun s => now - max_age * 3600 < s.timestamp)) := rfl
  have hslice : pySliceLast 8
        ((queue.foldl stream_drain_step state).streamed_submissions.filter
          (fun s => now - max_age * 3600 < s.timestamp))
      = ((queue.foldl stream_drain_step state).streamed_submissions.filter
          (fun s => now - max_age * 3600 < s.timestamp)).drop
          (((queue.foldl stream_drain_step state).streamed_submissions.filter
            (fun s => now - max_age * 3600 < s.timestamp)).length - 8) := by
    simp [pySliceLast]
  refine ⟨?_, ?_, ?_, ?_⟩
  · intro h
    rw [hs, hslice]
    have hnd := foldl_drain_nodup queue state h
    exact List.Nodup.sublist
      (List.Sublist.map StreamedSubmission.id
        ((List.drop_sublist _ _).trans (List.filter_sublist _))) hnd
  · intro s hmem
    rw [hs, hslice] at hmem
    have hmem2 := List.mem_of_mem_drop hmem
    have := (List.mem_filter.mp hmem2).2
    exact of_decide_eq_true this
  · rw [hs, hslice]
    simp only [List.length_drop]
    omega
  · rw [hs, hslice]
    exact List.drop_suffix _ _

/-- C4 witness: the invariants instantiated on a state holding one entry
and a queue bearing one fresh and one duplicate item. -/
theorem C4_pending_list_invariants_witness :
    (((stream_submissions_to_state ⟨[], [⟨"s1", 100⟩], 100⟩
          [⟨"s2", 200⟩, ⟨"s2", 300⟩] 300 1).streamed_submissions).map
        StreamedSubmission.id).Nodup :=
  (C4_pending_list_invariants ⟨[], [⟨"s1", 100⟩], 100⟩
      [⟨"s2", 200⟩, ⟨"s2", 300⟩] 300 1).1 (by decide)

/-! ## Claim theorems: react phase -/

/-- C9 counterexample: with one unread inbox comment and one pending
streamed submission, `handle_new_event` reacts to **both** in the same
cycle — first the inbox comment, then the pending post — rather than
detecting a single highest-priority event and choosing only the inbox
reply. -/
theorem C9_counterexample :
    (handle_new_event_core ["c1"] ⟨[], [⟨"s1", 0⟩], 0⟩ [] 0 1
        (fun _ => true)).1
      = [.inboxReply "t1_c1", .newPost "s1"] ∧
    ¬ ((handle_new_event_core ["c1"] ⟨[], [⟨"s1", 0⟩], 0⟩ [] 0 1
        (fun _ => true)).1.length ≤ 1) := by
  decide

/-- C9 (amended): in a react cycle where both an unread inbox comment and
a pending streamed submission exist, `handle_new_event` handles the inbox
reply first — taking precedence in order over the pending post — and then
also handles the pending post in the same cycle; when neither exists, the
cycle falls through with no reaction. -/
theorem C9_react_precedence :
    (∀ (inbox : List String) (state : AgentState) (queue : List QueueItem)
        (now max_age : Int) (author_known : String → Bool),
      inbox = [] →
      (stream_submissions_to_state state queue now
          max_age).streamed_submissions = [] →
      (handle_new_event_core inbox state queue now max_age author_known).1
        = []) ∧
    (∀ (inbox : List String) (c : String) (rest : List String)
        (state : AgentState) (queue : List QueueItem) (now max_age : Int)
        (author_known : String → Bool) (latest : StreamedSubmission),
      inbox = c :: rest →
      (stream_submissions_to_state state queue now
          max_age).streamed_submissions.getLast? = some latest →
      author_known latest.id = true →
      (handle_new_event_core inbox state queue now max_age author_known).1
        = [.inboxReply ("t1_" ++ c), .newPost latest.id]) := by
  constructor
  · intro inbox state queue now max_age author_known hinbox hempty
    subst hinbox
    simp [handle_new_event_core, hempty]
  · intro inbox c rest state queue now max_age author_known latest hinbox
      hlast hak
    subst hinbox
    simp only [handle_new_event_core, hlast, hak]
    simp

/-- C9 witness: the amended theorem applied on the two-event scenario of
the counterexample state, and on the empty scenario. -/
theorem C9_react_precedence_witness :
    (handle_new_event_core ["c1"] ⟨[], [⟨"s1", 0⟩], 0⟩ [] 0 1
        (fun _ => true)).1
      = [.inboxReply ("t1_" ++ "c1"),
         .newPost (StreamedSubmission.mk "s1" 0).id] ∧
    (handle_new_event_core [] ⟨[], [], 0⟩ [] 0 1 (fun _ => true)).1 = [] :=
  ⟨C9_react_precedence.2 ["c1"] "c1" [] ⟨[], [⟨"s1", 0⟩], 0⟩ [] 0 1
      (fun _ => true) ⟨"s1", 0⟩ rfl (by decide) (by decide),
   C9_react_precedence.1 [] ⟨[], [], 0⟩ [] 0 1 (fun _ => true) rfl
      (by decide)⟩

/-! ## Claim theorems: state persistence -/

/-- Decoding an encoded list element-wise recovers the list. -/
theorem decodeJsonList_encode {α : Type} (dec : Json → Option α)
    (enc : α → Json) (h : ∀ x, dec (enc x) = some x) :
    ∀ l : List α, decodeJsonList dec (l.map enc) = some l := by
  intro l
  induction l with
  | nil => rfl
  | cons x xs ih => simp [decodeJsonList, h x, ih]

/-- The full state document round-trips through the modelled pydantic
serialization. -/
theorem decodeAgentState_encode (st : AgentState) :
    decodeAgentState (encodeAgentState st) = some st := by
  have h1 : decodeJsonList decodeHistoryItem (st.history.map encodeHistoryItem)
      = some st.history :=
    decodeJsonList_encode decodeHistoryItem encodeHistoryItem
      (fun x => rfl) st.history
  have h2 : decodeJsonList decodeStreamedSubmission
        (st.streamed_submissions.map encodeStreamedSubmission)
      = some st.streamed_submissions :=
    decodeJsonList_encode decodeStreamedSubmission encodeStreamedSubmission
      (fun x => rfl) st.streamed_submissions
  simp [decodeAgentState, encodeAgentState, Json.getField, List.lookup,
    Json.asInt, h1, h2]

/-- C8: saving the agent state and loading it back reproduces a state
whose history list, pending-submission list and high-water timestamp are
identical to the saved ones (the whole state is equal); loading with no
state file constructs the empty state with the epoch watermark. -/
theorem C8_state_roundtrip :
    (∀ st : AgentState, load_state (some (save_state st)) = some st) ∧
    load_state none = some ⟨[], [], 0⟩ :=
  ⟨fun st => decodeAgentState_encode st, rfl⟩

end Regent
